import Mathlib

/-!
Shallow embedding of the halifax-meetings crawler (Go) and proofs about it.

Modelling conventions, used throughout:
* Instants and durations are `Int` nanoseconds, mirroring Go `time.Time`
  (as a linear instant) and `time.Duration`.  Calendar day arithmetic
  (`AddDate(0, 0, -7)`) is modelled linearly as `7 * dayNS`; calendar month
  arithmetic (`AddDate(0, -1, 0)`, `AddDate(0, -8, 0)`) is kept abstract as
  an `addMonths` parameter, since the claims only need it symbolically.
* The zero `time.Time` stands for "unset": the `timeValue` driver wrapper
  stores the zero time as SQL NULL, modelled by `timeValueOf`.
* SQLite tables are lists of row structures; an `insert ... on conflict do
  nothing` is `insertIfAbsent` keyed on the conflict target; `update` is a
  `List.map` guarded by the WHERE clause; `select max(c)` is `sqlMax`.
* Library calls that leave the repository (sha256/base62 hashing, date
  formatting and parsing, URL resolution, HTTP fetches and the external
  pdfinfo/pdftotext/pdftoppm/tesseract processes) are parameters of the
  embedded functions, so every theorem is universally quantified over them.
-/

namespace HalifaxMeetings

/-- Nanoseconds in a minute, as in Go `time.Minute`. -/
def minuteNS : Int := 60000000000

/-- Nanoseconds in an hour, as in Go `time.Hour`. -/
def hourNS : Int := 3600000000000

/-- Nanoseconds in a day, as in Go `24 * time.Hour`. -/
def dayNS : Int := 86400000000000

/-- The `timeValue` driver wrapper from main.go: storing a zero time yields
SQL NULL, any other time is stored as-is. -/
def timeValueOf (t : Int) : Option Int := if t = 0 then none else some t

/-- SQL `max` over a nullable datetime column: NULLs are ignored and the
result is NULL when no non-NULL value exists. -/
def sqlMax (l : List (Option Int)) : Option Int := (l.filterMap id).max?

/-- The freshness threshold computed inside `isMeetingFresh` (meetings.go):
58 minutes (one hour minus a two minute margin) unless the meeting date is
more than 7 days in the past, in which case it is 24 hours plus a jitter of
`jitterSample - 1h`, where `jitterSample` models the value drawn by
`rand.N(2 * time.Hour)`, i.e. a uniform sample in `[0, 2h)`. -/
def freshThreshold (now date jitterSample : Int) : Int :=
  if date < now - 7 * dayNS then 24 * hourNS + (jitterSample - hourNS)
  else hourNS - 2 * minuteNS

/-- `isMeetingFresh` from meetings.go.  The `lastObserved` argument is the
result of `select last_observed from meetings where id=?`: `none` models
`sql.ErrNoRows` (no row for this meeting), and a row whose column is NULL
scans as the zero time, so it arrives here as `some 0`. -/
def isMeetingFresh (lastObserved : Option Int) (now date jitterSample : Int) : Bool :=
  match lastObserved with
  | none => false
  | some lo => decide (now - lo < freshThreshold now date jitterSample)

/-- C1: isMeetingFresh returns false when no last-observed is recorded;
otherwise it is true iff now minus last-observed is strictly below a
threshold that is 58 minutes when the meeting date is within 7 days of now
(that is, not more than 7 days in the past), and 24 hours plus a symmetric
random jitter of magnitude at most 1 hour otherwise.  The jitter sample is
the value of `rand.N(2h)`, so it lies in `[0, 2h)` and the added jitter
`jitterSample - 1h` lies in `[-1h, 1h)`. -/
theorem c1_isMeetingFresh_spec (now date lo r : Int) (hr0 : 0 ≤ r) (hr2 : r < 2 * hourNS) :
    isMeetingFresh none now date r = false
    ∧ (isMeetingFresh (some lo) now date r = true ↔ now - lo < freshThreshold now date r)
    ∧ freshThreshold now date r
        = (if date < now - 7 * dayNS then 24 * hourNS + (r - hourNS) else 58 * minuteNS)
    ∧ -hourNS ≤ r - hourNS ∧ r - hourNS < hourNS := by
  refine ⟨rfl, by simp [isMeetingFresh], ?_, ?_, ?_⟩
  · simp only [freshThreshold, hourNS, minuteNS]
    norm_num
  · simp only [hourNS] at *
    omega
  · simp only [hourNS] at *
    omega

/-- Witness for C1 at a concrete input: now = 0, date = 0 (a today-dated
meeting), last observed 10 minutes ago, jitter sample 0. -/
theorem c1_isMeetingFresh_spec_witness :
    isMeetingFresh none 0 0 0 = false
    ∧ (isMeetingFresh (some (-(10 * minuteNS))) 0 0 0 = true
        ↔ 0 - -(10 * minuteNS) < freshThreshold 0 0 0)
    ∧ freshThreshold 0 0 0
        = (if (0 : Int) < 0 - 7 * dayNS then 24 * hourNS + (0 - hourNS) else 58 * minuteNS)
    ∧ -hourNS ≤ 0 - hourNS ∧ (0 : Int) - hourNS < hourNS :=
  c1_isMeetingFresh_spec 0 0 (-(10 * minuteNS)) 0 (by norm_num) (by norm_num [hourNS])

/-- C5 counterexample: a today-dated meeting whose last-observed is
59 minutes before now is NOT fresh, because the threshold for meetings
dated within the last 7 days is 58 minutes, not an hour.  The claim states
the result is true; the code returns false. -/
theorem c5_counterexample :
    isMeetingFresh (some (1000 * dayNS - 59 * minuteNS)) (1000 * dayNS) (1000 * dayNS) 0
      = false := by decide

/-- C5 amended: for a today-dated meeting, last-observed 57 minutes ago is
fresh, while 59 or 61 minutes ago is not fresh (the threshold is 58
minutes); and for a meeting dated 30 days ago the threshold always lies in
the interval from 23 hours to 25 hours. -/
theorem c5_fresh_boundaries (now r : Int) (hr0 : 0 ≤ r) (hr2 : r < 2 * hourNS) :
    isMeetingFresh (some (now - 57 * minuteNS)) now now r = true
    ∧ isMeetingFresh (some (now - 59 * minuteNS)) now now r = false
    ∧ isMeetingFresh (some (now - 61 * minuteNS)) now now r = false
    ∧ 23 * hourNS ≤ freshThreshold now (now - 30 * dayNS) r
    ∧ freshThreshold now (now - 30 * dayNS) r < 25 * hourNS := by
  have hday : (0 : Int) < dayNS := by norm_num [dayNS]
  refine ⟨?_, ?_, ?_, ?_, ?_⟩
  all_goals
    simp only [isMeetingFresh, freshThreshold, minuteNS, hourNS, dayNS] at *
  all_goals
    first
      | (rw [if_neg (by omega)]; simp; try omega)
      | (rw [if_pos (by omega)]; omega)

/-- Witness for C5 amended at now = 0, jitter sample 0. -/
theorem c5_fresh_boundaries_witness :
    isMeetingFresh (some (0 - 57 * minuteNS)) 0 0 0 = true
    ∧ isMeetingFresh (some (0 - 59 * minuteNS)) 0 0 0 = false
    ∧ isMeetingFresh (some (0 - 61 * minuteNS)) 0 0 0 = false
    ∧ 23 * hourNS ≤ freshThreshold 0 (0 - 30 * dayNS) 0
    ∧ freshThreshold 0 (0 - 30 * dayNS) 0 < 25 * hourNS :=
  c5_fresh_boundaries 0 0 (by norm_num) (by norm_num [hourNS])

/-- A named link of a meeting (the Go `MeetingURL` struct). -/
structure MeetingURL where
  name : String
  url : String
deriving DecidableEq

/-- The Go `Meeting` struct; `date` and `note` are the `Event` fields. -/
structure Meeting where
  id : String
  type : String
  date : Int
  note : String
  urls : List MeetingURL
deriving DecidableEq

/-- `Meeting.URL` from client.go: the first link with the given name, or
the empty string. -/
def Meeting.urlNamed (m : Meeting) (name : String) : String :=
  match m.urls.find? (fun u => u.name == name) with
  | some u => u.url
  | none => ""

/-- The Go `MeetingAgenda` struct. -/
structure MeetingAgenda where
  contentHTML : String
  contentText : String
  contentURLs : List String
deriving DecidableEq

/-- A row of `meeting_agenda_content`. -/
structure ContentRow where
  id : String
  text : String
  html : String
deriving DecidableEq

/-- A row of the `meeting_agenda_content_search` FTS table; the content id
stands in for the rowid it is keyed on. -/
structure SearchRow where
  contentID : String
  text : String
deriving DecidableEq

/-- A row of `meetings`. -/
structure MeetingRow where
  id : String
  type : String
  date : String
  scheduleNote : String
  lastObserved : Option Int
  updated : Option Int
  agendaURL : String
  minutesURL : String
  videoURL : String
  agendaContentID : String
deriving DecidableEq

/-- A row of `meeting_versions`. -/
structure VersionRow where
  meetingID : String
  observed : Option Int
  scheduleNote : String
  agendaURL : String
  minutesURL : String
  videoURL : String
  agendaContentID : String
deriving DecidableEq

/-- A row of `external_content`. -/
structure ExtContentRow where
  id : String
  title : String
  text : String
deriving DecidableEq

/-- A row of the `external_content_search` FTS table, keyed by content id
in place of the rowid. -/
structure ExtSearchRow where
  contentID : String
  title : String
  text : String
deriving DecidableEq

/-- A row of `external_content_urls`. -/
structure ExtURLRow where
  url : String
  added : Option Int
  fetched : Option Int
  contentType : Option String
  size : Option Int
  lastModified : Option Int
  etag : Option String
  error : Option String
  externalContentID : Option String
deriving DecidableEq

/-- A row of `meeting_external_content_urls`. -/
structure MeetingExtURLRow where
  meetingID : String
  agendaContentID : String
  externalContentURL : String
deriving DecidableEq

/-- The SQLite database of main.go, one list per table. -/
structure Store where
  meetingAgendaContent : List ContentRow
  meetingAgendaContentSearch : List SearchRow
  meetings : List MeetingRow
  meetingVersions : List VersionRow
  externalContent : List ExtContentRow
  externalContentSearch : List ExtSearchRow
  externalContentURLs : List ExtURLRow
  meetingExternalContentURLs : List MeetingExtURLRow
deriving DecidableEq

/-- `insert ... on conflict do nothing`: append the row unless a row
matching the conflict-target predicate is already present. -/
def insertIfAbsent {α : Type} (p : α → Bool) (l : List α) (a : α) : List α :=
  if l.any p then l else l ++ [a]

theorem any_insertIfAbsent {α : Type} (p : α → Bool) (l : List α) (a : α)
    (ha : p a = true) : (insertIfAbsent p l a).any p = true := by
  unfold insertIfAbsent
  by_cases h : l.any p = true
  · simp [h]
  · simp only [h, if_neg, Bool.not_eq_true] at *
    simp [h, ha]

theorem insertIfAbsent_idem {α : Type} (p : α → Bool) (l : List α) (a : α)
    (ha : p a = true) : insertIfAbsent p (insertIfAbsent p l a) a = insertIfAbsent p l a := by
  unfold insertIfAbsent
  by_cases h : l.any p = true
  · simp [h]
  · simp only [Bool.not_eq_true] at h
    simp [h, ha]

theorem countP_eq_zero_any {α : Type} (p : α → Bool) (l : List α)
    (h0 : l.countP p = 0) : l.any p = false := by
  rw [List.any_eq_false]
  intro x hx
  rw [List.countP_eq_zero] at h0
  exact h0 x hx

theorem countP_insertIfAbsent {α : Type} (p : α → Bool) (l : List α) (a : α)
    (ha : p a = true) (h0 : l.countP p = 0) :
    (insertIfAbsent p l a).countP p = 1 := by
  unfold insertIfAbsent
  rw [countP_eq_zero_any p l h0]
  simp [List.countP_append, h0, ha]

/-- The `meeting_versions` row inserted by `saveMeeting` (meetings.go).
The `contentIdOf` parameter abstracts `base62(sha256-224(html + newline))`. -/
def saveVersionRow (contentIdOf : String → String) (m : Meeting) (a : MeetingAgenda)
    (observed : Int) : VersionRow :=
  { meetingID := m.id
    observed := timeValueOf observed
    scheduleNote := m.note
    agendaURL := m.urlNamed "agenda"
    minutesURL := m.urlNamed "minutes"
    videoURL := m.urlNamed "video"
    agendaContentID := contentIdOf a.contentHTML }

/-- The unique key of `meeting_versions` declared in initDB (main.go):
(meeting_id, schedule_note, agenda_url, minutes_url, video_url,
agenda_content_id).  Note `observed` is not part of the key. -/
def versionKey (v : VersionRow) : String × String × String × String × String × String :=
  (v.meetingID, v.scheduleNote, v.agendaURL, v.minutesURL, v.videoURL, v.agendaContentID)

/-- `insert into meetings ... on conflict (id) do update set ...` from
`saveMeeting`: update the non-time fields of any existing row with this id,
or append a fresh row whose `last_observed` and `updated` are NULL. -/
def upsertMeeting (formatDate : Int → String)
    (m : Meeting) (contentID : String) (l : List MeetingRow) : List MeetingRow :=
  if l.any (fun x => x.id == m.id) then
    l.map (fun x => if x.id == m.id then
      { x with
        type := m.type
        date := formatDate m.date
        scheduleNote := m.note
        agendaURL := m.urlNamed "agenda"
        minutesURL := m.urlNamed "minutes"
        videoURL := m.urlNamed "video"
        agendaContentID := contentID } else x)
  else
    l ++ [{ id := m.id
            type := m.type
            date := formatDate m.date
            scheduleNote := m.note
            lastObserved := none
            updated := none
            agendaURL := m.urlNamed "agenda"
            minutesURL := m.urlNamed "minutes"
            videoURL := m.urlNamed "video"
            agendaContentID := contentID }]

/-- `update meetings set updated=(select max(observed) from meeting_versions
where meeting_id=id), last_observed=? where id=?` from `saveMeeting`.  Since
`meeting_versions` has no `id` column, the subquery correlates with
`meetings.id`, which equals the targeted id for every updated row, so the
caller passes the already-computed maximum. -/
def setMeetingTimes (id : String) (upd lastObs : Option Int) (l : List MeetingRow) :
    List MeetingRow :=
  l.map (fun x => if x.id == id then { x with updated := upd, lastObserved := lastObs } else x)

/-- One iteration of the loop in `saveMeetingURLs` (meetings.go): insert the
external URL row (conflict target: the url primary key) and the
meeting-to-URL link row (conflict target: its unique triple), each with
`on conflict do nothing`. -/
def saveMeetingURLsStep (observed : Int) (meetingID contentID : String) (S : Store)
    (u : String) : Store :=
  { S with
    externalContentURLs := insertIfAbsent (fun r => r.url == u) S.externalContentURLs
      { url := u
        added := timeValueOf observed
        fetched := none
        contentType := none
        size := none
        lastModified := none
        etag := none
        error := none
        externalContentID := none }
    meetingExternalContentURLs := insertIfAbsent
      (fun r => r.meetingID == meetingID && r.agendaContentID == contentID
        && r.externalContentURL == u)
      S.meetingExternalContentURLs
      { meetingID := meetingID, agendaContentID := contentID, externalContentURL := u } }

/-- `saveMeetingURLs` from meetings.go: fold the step over the agenda's
content URLs in order. -/
def saveMeetingURLs (observed : Int) (meetingID contentID : String) (urls : List String)
    (S : Store) : Store :=
  urls.foldl (saveMeetingURLsStep observed meetingID contentID) S

/-- The store committed by a successful `saveMeeting` (meetings.go),
applying its five transaction steps in program order: insert the agenda
content plus, when newly inserted, its search row; upsert the `meetings`
row; insert the version row; recompute `updated` and `last_observed`; and
record the agenda's external content URLs. -/
def saveMeetingResult (contentIdOf : String → String) (formatDate : Int → String)
    (S : Store) (m : Meeting) (a : MeetingAgenda) (observed : Int) : Store :=
  let contentID := contentIdOf a.contentHTML
  let hadContent := S.meetingAgendaContent.any (fun c => c.id == contentID)
  let content1 := insertIfAbsent (fun c => c.id == contentID) S.meetingAgendaContent
    { id := contentID, text := a.contentText, html := a.contentHTML }
  let search1 := if hadContent then S.meetingAgendaContentSearch
    else S.meetingAgendaContentSearch ++ [{ contentID := contentID, text := a.contentText }]
  let meetings1 := upsertMeeting formatDate m contentID S.meetings
  let v := saveVersionRow contentIdOf m a observed
  let versions1 := insertIfAbsent (fun w => versionKey w == versionKey v) S.meetingVersions v
  let updatedVal := sqlMax ((versions1.filter (fun w => w.meetingID == m.id)).map
    (fun w => w.observed))
  let meetings2 := setMeetingTimes m.id updatedVal (timeValueOf observed) meetings1
  let S1 : Store :=
    { S with
      meetingAgendaContent := content1
      meetingAgendaContentSearch := search1
      meetings := meetings2
      meetingVersions := versions1 }
  saveMeetingURLs observed m.id contentID a.contentURLs S1

/-- `saveMeeting` from meetings.go.  `contentIdOf` abstracts the
base62-encoded sha256-224 hash of the agenda HTML; `formatDate` abstracts
`Date.Format("2006-01-02")`.  It fails only when the meeting has no agenda
URL; otherwise it commits `saveMeetingResult`. -/
def saveMeeting (contentIdOf : String → String) (formatDate : Int → String)
    (S : Store) (m : Meeting) (a : MeetingAgenda) (observed : Int) : Except String Store :=
  if m.urlNamed "agenda" = "" then .error "no agenda URL"
  else .ok (saveMeetingResult contentIdOf formatDate S m a observed)

theorem saveMeeting_ok (contentIdOf : String → String) (formatDate : Int → String)
    (S : Store) (m : Meeting) (a : MeetingAgenda) (observed : Int)
    (hURL : m.urlNamed "agenda" ≠ "") :
    saveMeeting contentIdOf formatDate S m a observed
      = .ok (saveMeetingResult contentIdOf formatDate S m a observed) := by
  unfold saveMeeting
  rw [if_neg hURL]

theorem saveMeetingURLs_meetings (o : Int) (mid cid : String) (us : List String) (S : Store) :
    (saveMeetingURLs o mid cid us S).meetings = S.meetings := by
  induction us generalizing S with
  | nil => rfl
  | cons u us ih =>
    show (saveMeetingURLs o mid cid us (saveMeetingURLsStep o mid cid S u)).meetings
      = S.meetings
    rw [ih]
    rfl

theorem saveMeetingURLs_versions (o : Int) (mid cid : String) (us : List String) (S : Store) :
    (saveMeetingURLs o mid cid us S).meetingVersions = S.meetingVersions := by
  induction us generalizing S with
  | nil => rfl
  | cons u us ih =>
    show (saveMeetingURLs o mid cid us (saveMeetingURLsStep o mid cid S u)).meetingVersions
      = S.meetingVersions
    rw [ih]
    rfl

theorem saveMeetingURLs_content (o : Int) (mid cid : String) (us : List String) (S : Store) :
    (saveMeetingURLs o mid cid us S).meetingAgendaContent = S.meetingAgendaContent := by
  induction us generalizing S with
  | nil => rfl
  | cons u us ih =>
    show (saveMeetingURLs o mid cid us
        (saveMeetingURLsStep o mid cid S u)).meetingAgendaContent = S.meetingAgendaContent
    rw [ih]
    rfl

theorem saveMeetingURLs_search (o : Int) (mid cid : String) (us : List String) (S : Store) :
    (saveMeetingURLs o mid cid us S).meetingAgendaContentSearch
      = S.meetingAgendaContentSearch := by
  induction us generalizing S with
  | nil => rfl
  | cons u us ih =>
    show (saveMeetingURLs o mid cid us
        (saveMeetingURLsStep o mid cid S u)).meetingAgendaContentSearch
      = S.meetingAgendaContentSearch
    rw [ih]
    rfl

theorem any_pointwise {α : Type} (l : List α) (p q : α → Bool) (h : ∀ x, p x = q x) :
    l.any p = l.any q := by
  have : p = q := funext h
  rw [this]

theorem any_upsertMeeting (fd : Int → String) (m : Meeting) (cid : String)
    (l : List MeetingRow) :
    (upsertMeeting fd m cid l).any (fun x => x.id == m.id) = true := by
  unfold upsertMeeting
  by_cases h : l.any (fun x => x.id == m.id) = true
  · rw [if_pos h, List.any_map]
    rw [any_pointwise _ _ (fun x => x.id == m.id)]
    · exact h
    · intro x
      by_cases hx : x.id == m.id <;> simp [Function.comp, hx]
  · simp only [h, if_neg, Bool.false_eq_true, not_false_iff, if_neg]
    simp

theorem setMeetingTimes_find (id : String) (upd lo : Option Int) (l : List MeetingRow)
    (h : l.any (fun x => x.id == id) = true) :
    ∃ x, (setMeetingTimes id upd lo l).find? (fun y => y.id == id) = some x
      ∧ x.updated = upd ∧ x.lastObserved = lo := by
  induction l with
  | nil => simp at h
  | cons y l ih =>
    by_cases hy : y.id == id
    · refine ⟨{ y with updated := upd, lastObserved := lo }, ?_, rfl, rfl⟩
      simp [setMeetingTimes, List.find?, hy]
    · have h2 : l.any (fun x => x.id == id) = true := by
        simp only [List.any_cons, hy, Bool.false_or] at h
        exact h
      obtain ⟨x, hf, hu, hl⟩ := ih h2
      refine ⟨x, ?_, hu, hl⟩
      simpa [setMeetingTimes, List.find?, hy] using hf

/-- C9: after every successful saveMeeting call, the meeting row's
last_observed equals the observation time (regardless of whether the
version tuple was new), and its updated field equals the SQL max of
observed over that meeting's stored versions. -/
theorem c9_saveMeeting_times (cio : String → String) (fd : Int → String)
    (S : Store) (m : Meeting) (a : MeetingAgenda) (obs : Int)
    (hURL : m.urlNamed "agenda" ≠ "") (hObs : obs ≠ 0) :
    ∃ S1, saveMeeting cio fd S m a obs = .ok S1
      ∧ ∃ row, S1.meetings.find? (fun x => x.id == m.id) = some row
          ∧ row.lastObserved = some obs
          ∧ row.updated = sqlMax ((S1.meetingVersions.filter
              (fun w => w.meetingID == m.id)).map (fun w => w.observed)) := by
  refine ⟨_, saveMeeting_ok cio fd S m a obs hURL, ?_⟩
  unfold saveMeetingResult
  rw [saveMeetingURLs_meetings, saveMeetingURLs_versions]
  have hany := any_upsertMeeting fd m (cio a.contentHTML) S.meetings
  obtain ⟨row, hf, hu, hl⟩ := setMeetingTimes_find m.id _ (timeValueOf obs) _ hany
  refine ⟨row, hf, ?_, hu⟩
  rw [hl]
  simp [timeValueOf, hObs]

/-- Witness for C9 on the empty store with a one-link meeting. -/
theorem c9_saveMeeting_times_witness :
    ∃ S1, saveMeeting (fun _ => "c") (fun _ => "d") ⟨[], [], [], [], [], [], [], []⟩
        { id := "m1", type := "t", date := 0, note := "", urls := [⟨"agenda", "u"⟩] }
        { contentHTML := "h", contentText := "x", contentURLs := [] } 5 = .ok S1
      ∧ ∃ row, S1.meetings.find? (fun x => x.id == "m1") = some row
          ∧ row.lastObserved = some 5
          ∧ row.updated = sqlMax ((S1.meetingVersions.filter
              (fun w => w.meetingID == "m1")).map (fun w => w.observed)) :=
  c9_saveMeeting_times (fun _ => "c") (fun _ => "d") ⟨[], [], [], [], [], [], [], []⟩
    { id := "m1", type := "t", date := 0, note := "", urls := [⟨"agenda", "u"⟩] }
    { contentHTML := "h", contentText := "x", contentURLs := [] } 5
    (by decide) (by decide)

theorem map_stable {α : Type} (f : α → α) (l : List α) (h : ∀ x ∈ l, f x = x) :
    l.map f = l := by
  induction l with
  | nil => rfl
  | cons y l ih =>
    simp only [List.map_cons]
    rw [h y (by simp), ih (fun x hx => h x (by simp [hx]))]

theorem upsertMeeting_fields (fd : Int → String) (m : Meeting) (cid : String)
    (l : List MeetingRow) :
    ∀ x ∈ upsertMeeting fd m cid l, (x.id == m.id) = true →
      x.type = m.type ∧ x.date = fd m.date ∧ x.scheduleNote = m.note
      ∧ x.agendaURL = m.urlNamed "agenda" ∧ x.minutesURL = m.urlNamed "minutes"
      ∧ x.videoURL = m.urlNamed "video" ∧ x.agendaContentID = cid := by
  unfold upsertMeeting
  by_cases h : l.any (fun x => x.id == m.id) = true
  · rw [if_pos h]
    intro x hx hid
    obtain ⟨y, hy, hxy⟩ := List.mem_map.mp hx
    by_cases hyid : (y.id == m.id) = true
    · rw [if_pos hyid] at hxy
      subst hxy
      exact ⟨rfl, rfl, rfl, rfl, rfl, rfl, rfl⟩
    · rw [if_neg hyid] at hxy
      subst hxy
      exact absurd hid hyid
  · rw [if_neg h]
    intro x hx hid
    rcases List.mem_append.mp hx with h1 | h2
    · rw [Bool.not_eq_true, List.any_eq_false] at h
      exact absurd hid (h x h1)
    · simp only [List.mem_singleton] at h2
      subst h2
      exact ⟨rfl, rfl, rfl, rfl, rfl, rfl, rfl⟩

theorem any_setMeetingTimes (id q : String) (u lo : Option Int) (l : List MeetingRow) :
    (setMeetingTimes id u lo l).any (fun x => x.id == q)
      = l.any (fun x => x.id == q) := by
  unfold setMeetingTimes
  rw [List.any_map]
  apply any_pointwise
  intro x
  by_cases hx : (x.id == id) = true <;> simp [Function.comp, hx]

theorem mem_setMeetingTimes (id : String) (u lo : Option Int) (l : List MeetingRow)
    (x : MeetingRow) (hx : x ∈ setMeetingTimes id u lo l) :
    ∃ y ∈ l, x = if y.id == id
      then { y with updated := u, lastObserved := lo } else y := by
  unfold setMeetingTimes at hx
  obtain ⟨y, hy, hxy⟩ := List.mem_map.mp hx
  exact ⟨y, hy, hxy.symm⟩

theorem upsertMeeting_stable (fd : Int → String) (m : Meeting) (cid : String)
    (l : List MeetingRow)
    (hany : l.any (fun x => x.id == m.id) = true)
    (hf : ∀ x ∈ l, (x.id == m.id) = true → x.type = m.type ∧ x.date = fd m.date
      ∧ x.scheduleNote = m.note ∧ x.agendaURL = m.urlNamed "agenda"
      ∧ x.minutesURL = m.urlNamed "minutes" ∧ x.videoURL = m.urlNamed "video"
      ∧ x.agendaContentID = cid) :
    upsertMeeting fd m cid l = l := by
  unfold upsertMeeting
  rw [if_pos hany]
  apply map_stable
  intro x hx
  by_cases hid : (x.id == m.id) = true
  · obtain ⟨h1, h2, h3, h4, h5, h6, h7⟩ := hf x hx hid
    rw [if_pos hid]
    cases x
    simp_all
  · rw [if_neg hid]

theorem setMeetingTimes_stable (id : String) (u lo : Option Int) (l : List MeetingRow)
    (h : ∀ x ∈ l, (x.id == id) = true → x.updated = u ∧ x.lastObserved = lo) :
    setMeetingTimes id u lo l = l := by
  unfold setMeetingTimes
  apply map_stable
  intro x hx
  by_cases hid : (x.id == id) = true
  · obtain ⟨h1, h2⟩ := h x hx hid
    rw [if_pos hid]
    cases x
    simp_all
  · rw [if_neg hid]

theorem setTimes_upsert_inv (fd : Int → String) (m : Meeting) (cid : String)
    (u lo : Option Int) (l : List MeetingRow) :
    ∀ x ∈ setMeetingTimes m.id u lo (upsertMeeting fd m cid l), (x.id == m.id) = true →
      (x.type = m.type ∧ x.date = fd m.date ∧ x.scheduleNote = m.note
        ∧ x.agendaURL = m.urlNamed "agenda" ∧ x.minutesURL = m.urlNamed "minutes"
        ∧ x.videoURL = m.urlNamed "video" ∧ x.agendaContentID = cid)
      ∧ x.updated = u ∧ x.lastObserved = lo := by
  intro x hx hid
  obtain ⟨y, hy, hxy⟩ := mem_setMeetingTimes _ _ _ _ _ hx
  by_cases hyid : (y.id == m.id) = true
  · rw [if_pos hyid] at hxy
    have hf := upsertMeeting_fields fd m cid l y hy hyid
    subst hxy
    exact ⟨hf, rfl, rfl⟩
  · rw [if_neg hyid] at hxy
    subst hxy
    exact absurd hid hyid

theorem any_insertIfAbsent_mono {α : Type} (p q : α → Bool) (l : List α) (a : α)
    (h : l.any p = true) : (insertIfAbsent q l a).any p = true := by
  unfold insertIfAbsent
  by_cases hq : l.any q = true
  · rw [if_pos hq]; exact h
  · rw [if_neg hq]; simp [h]

theorem step_ext_any (o : Int) (mid cid : String) (S : Store) (u u' : String)
    (h : S.externalContentURLs.any (fun r => r.url == u') = true) :
    (saveMeetingURLsStep o mid cid S u).externalContentURLs.any
      (fun r => r.url == u') = true :=
  any_insertIfAbsent_mono _ _ _ _ h

theorem step_mec_any (o : Int) (mid cid : String) (S : Store) (u u' : String)
    (h : S.meetingExternalContentURLs.any (fun r => r.meetingID == mid
      && r.agendaContentID == cid && r.externalContentURL == u') = true) :
    (saveMeetingURLsStep o mid cid S u).meetingExternalContentURLs.any
      (fun r => r.meetingID == mid && r.agendaContentID == cid
        && r.externalContentURL == u') = true :=
  any_insertIfAbsent_mono _ _ _ _ h

theorem step_self_ext (o : Int) (mid cid : String) (S : Store) (u : String) :
    (saveMeetingURLsStep o mid cid S u).externalContentURLs.any
      (fun r => r.url == u) = true :=
  any_insertIfAbsent _ _ _ (by simp)

theorem step_self_mec (o : Int) (mid cid : String) (S : Store) (u : String) :
    (saveMeetingURLsStep o mid cid S u).meetingExternalContentURLs.any
      (fun r => r.meetingID == mid && r.agendaContentID == cid
        && r.externalContentURL == u) = true :=
  any_insertIfAbsent _ _ _ (by simp)

theorem saveMeetingURLs_pres_ext (o : Int) (mid cid : String) (us : List String)
    (S : Store) (u' : String)
    (h : S.externalContentURLs.any (fun r => r.url == u') = true) :
    (saveMeetingURLs o mid cid us S).externalContentURLs.any
      (fun r => r.url == u') = true := by
  induction us generalizing S with
  | nil => exact h
  | cons u us ih =>
    show (saveMeetingURLs o mid cid us
        (saveMeetingURLsStep o mid cid S u)).externalContentURLs.any
        (fun r => r.url == u') = true
    exact ih _ (step_ext_any o mid cid S u u' h)

theorem saveMeetingURLs_pres_mec (o : Int) (mid cid : String) (us : List String)
    (S : Store) (u' : String)
    (h : S.meetingExternalContentURLs.any (fun r => r.meetingID == mid
      && r.agendaContentID == cid && r.externalContentURL == u') = true) :
    (saveMeetingURLs o mid cid us S).meetingExternalContentURLs.any
      (fun r => r.meetingID == mid && r.agendaContentID == cid
        && r.externalContentURL == u') = true := by
  induction us generalizing S with
  | nil => exact h
  | cons u us ih =>
    show (saveMeetingURLs o mid cid us
        (saveMeetingURLsStep o mid cid S u)).meetingExternalContentURLs.any
        (fun r => r.meetingID == mid && r.agendaContentID == cid
          && r.externalContentURL == u') = true
    exact ih _ (step_mec_any o mid cid S u u' h)

theorem saveMeetingURLs_establishes (o : Int) (mid cid : String) (us : List String)
    (S : Store) :
    ∀ u ∈ us, (saveMeetingURLs o mid cid us S).externalContentURLs.any
        (fun r => r.url == u) = true
      ∧ (saveMeetingURLs o mid cid us S).meetingExternalContentURLs.any
        (fun r => r.meetingID == mid && r.agendaContentID == cid
          && r.externalContentURL == u) = true := by
  induction us generalizing S with
  | nil => intro u hu; exact absurd hu (List.not_mem_nil u)
  | cons v us ih =>
    intro u hu
    show (saveMeetingURLs o mid cid us
        (saveMeetingURLsStep o mid cid S v)).externalContentURLs.any
        (fun r => r.url == u) = true ∧ _
    rcases List.mem_cons.mp hu with h1 | h2
    · subst h1
      exact ⟨saveMeetingURLs_pres_ext o mid cid us _ u (step_self_ext o mid cid S u),
        saveMeetingURLs_pres_mec o mid cid us _ u (step_self_mec o mid cid S u)⟩
    · exact ih _ u h2

theorem step_noop (o : Int) (mid cid : String) (S : Store) (u : String)
    (h1 : S.externalContentURLs.any (fun r => r.url == u) = true)
    (h2 : S.meetingExternalContentURLs.any (fun r => r.meetingID == mid
      && r.agendaContentID == cid && r.externalContentURL == u) = true) :
    saveMeetingURLsStep o mid cid S u = S := by
  have e1 : insertIfAbsent (fun r => r.url == u) S.externalContentURLs
      { url := u
        added := timeValueOf o
        fetched := none
        contentType := none
        size := none
        lastModified := none
        etag := none
        error := none
        externalContentID := none } = S.externalContentURLs := by
    unfold insertIfAbsent
    rw [if_pos h1]
  have e2 : insertIfAbsent (fun r => r.meetingID == mid && r.agendaContentID == cid
      && r.externalContentURL == u) S.meetingExternalContentURLs
      { meetingID := mid, agendaContentID := cid, externalContentURL := u }
      = S.meetingExternalContentURLs := by
    unfold insertIfAbsent
    rw [if_pos h2]
  unfold saveMeetingURLsStep
  rw [e1, e2]

theorem saveMeetingURLs_noop (o : Int) (mid cid : String) (us : List String) (S : Store)
    (h : ∀ u ∈ us, S.externalContentURLs.any (fun r => r.url == u) = true
      ∧ S.meetingExternalContentURLs.any (fun r => r.meetingID == mid
        && r.agendaContentID == cid && r.externalContentURL == u) = true) :
    saveMeetingURLs o mid cid us S = S := by
  induction us with
  | nil => rfl
  | cons u us ih =>
    obtain ⟨h1, h2⟩ := h u (by simp)
    show saveMeetingURLs o mid cid us (saveMeetingURLsStep o mid cid S u) = S
    rw [step_noop o mid cid S u h1 h2]
    exact ih (fun v hv => h v (by simp [hv]))

theorem saveMeetingURLs_idem (o : Int) (mid cid : String) (us : List String) (S : Store) :
    saveMeetingURLs o mid cid us (saveMeetingURLs o mid cid us S)
      = saveMeetingURLs o mid cid us S :=
  saveMeetingURLs_noop o mid cid us _ (saveMeetingURLs_establishes o mid cid us S)

theorem saveMeetingResult_def (cio : String → String) (fd : Int → String) (S : Store)
    (m : Meeting) (a : MeetingAgenda) (obs : Int) :
    saveMeetingResult cio fd S m a obs
      = saveMeetingURLs obs m.id (cio a.contentHTML) a.contentURLs
          { S with
            meetingAgendaContent := insertIfAbsent (fun c => c.id == cio a.contentHTML)
              S.meetingAgendaContent
              { id := cio a.contentHTML, text := a.contentText, html := a.contentHTML }
            meetingAgendaContentSearch :=
              if S.meetingAgendaContent.any (fun c => c.id == cio a.contentHTML)
              then S.meetingAgendaContentSearch
              else S.meetingAgendaContentSearch
                ++ [{ contentID := cio a.contentHTML, text := a.contentText }]
            meetings := setMeetingTimes m.id
              (sqlMax (((insertIfAbsent (fun w => versionKey w
                  == versionKey (saveVersionRow cio m a obs)) S.meetingVersions
                  (saveVersionRow cio m a obs)).filter
                  (fun w => w.meetingID == m.id)).map (fun w => w.observed)))
              (timeValueOf obs)
              (upsertMeeting fd m (cio a.contentHTML) S.meetings)
            meetingVersions := insertIfAbsent (fun w => versionKey w
              == versionKey (saveVersionRow cio m a obs)) S.meetingVersions
              (saveVersionRow cio m a obs) } := rfl

theorem saveMeetingResult_mac (cio : String → String) (fd : Int → String) (S : Store)
    (m : Meeting) (a : MeetingAgenda) (obs : Int) :
    (saveMeetingResult cio fd S m a obs).meetingAgendaContent
      = insertIfAbsent (fun c => c.id == cio a.contentHTML) S.meetingAgendaContent
          { id := cio a.contentHTML, text := a.contentText, html := a.contentHTML } := by
  rw [saveMeetingResult_def, saveMeetingURLs_content]

theorem saveMeetingResult_macs (cio : String → String) (fd : Int → String) (S : Store)
    (m : Meeting) (a : MeetingAgenda) (obs : Int) :
    (saveMeetingResult cio fd S m a obs).meetingAgendaContentSearch
      = if S.meetingAgendaContent.any (fun c => c.id == cio a.contentHTML)
        then S.meetingAgendaContentSearch
        else S.meetingAgendaContentSearch
          ++ [{ contentID := cio a.contentHTML, text := a.contentText }] := by
  rw [saveMeetingResult_def, saveMeetingURLs_search]

theorem saveMeetingResult_versions (cio : String → String) (fd : Int → String) (S : Store)
    (m : Meeting) (a : MeetingAgenda) (obs : Int) :
    (saveMeetingResult cio fd S m a obs).meetingVersions
      = insertIfAbsent (fun w => versionKey w == versionKey (saveVersionRow cio m a obs))
          S.meetingVersions (saveVersionRow cio m a obs) := by
  rw [saveMeetingResult_def, saveMeetingURLs_versions]

theorem saveMeetingResult_meetings (cio : String → String) (fd : Int → String) (S : Store)
    (m : Meeting) (a : MeetingAgenda) (obs : Int) :
    (saveMeetingResult cio fd S m a obs).meetings
      = setMeetingTimes m.id
          (sqlMax (((insertIfAbsent (fun w => versionKey w
              == versionKey (saveVersionRow cio m a obs)) S.meetingVersions
              (saveVersionRow cio m a obs)).filter
              (fun w => w.meetingID == m.id)).map (fun w => w.observed)))
          (timeValueOf obs)
          (upsertMeeting fd m (cio a.contentHTML) S.meetings) := by
  rw [saveMeetingResult_def, saveMeetingURLs_meetings]

theorem saveMeetingResult_idem (cio : String → String) (fd : Int → String) (S : Store)
    (m : Meeting) (a : MeetingAgenda) (obs : Int) :
    saveMeetingResult cio fd (saveMeetingResult cio fd S m a obs) m a obs
      = saveMeetingResult cio fd S m a obs := by
  have hmac := saveMeetingResult_mac cio fd S m a obs
  have hmacs := saveMeetingResult_macs cio fd S m a obs
  have hver := saveMeetingResult_versions cio fd S m a obs
  have hmeet := saveMeetingResult_meetings cio fd S m a obs
  set T := saveMeetingResult cio fd S m a obs with hT
  have h1 : insertIfAbsent (fun c => c.id == cio a.contentHTML) T.meetingAgendaContent
      { id := cio a.contentHTML, text := a.contentText, html := a.contentHTML }
      = T.meetingAgendaContent := by
    rw [hmac]
    exact insertIfAbsent_idem _ _ _ (by simp)
  have hadT : T.meetingAgendaContent.any (fun c => c.id == cio a.contentHTML) = true := by
    rw [hmac]
    exact any_insertIfAbsent _ _ _ (by simp)
  have h3 : insertIfAbsent (fun w => versionKey w == versionKey (saveVersionRow cio m a obs))
      T.meetingVersions (saveVersionRow cio m a obs) = T.meetingVersions := by
    rw [hver]
    exact insertIfAbsent_idem _ _ _ (by simp)
  have hanyT : T.meetings.any (fun x => x.id == m.id) = true := by
    rw [hmeet, any_setMeetingTimes]
    exact any_upsertMeeting fd m (cio a.contentHTML) S.meetings
  have hfT : ∀ x ∈ T.meetings, (x.id == m.id) = true → x.type = m.type
      ∧ x.date = fd m.date ∧ x.scheduleNote = m.note ∧ x.agendaURL = m.urlNamed "agenda"
      ∧ x.minutesURL = m.urlNamed "minutes" ∧ x.videoURL = m.urlNamed "video"
      ∧ x.agendaContentID = cio a.contentHTML := by
    intro x hx hid
    rw [hmeet] at hx
    exact (setTimes_upsert_inv fd m (cio a.contentHTML) _ _ S.meetings x hx hid).1
  have h4 : setMeetingTimes m.id
      (sqlMax (((insertIfAbsent (fun w => versionKey w
          == versionKey (saveVersionRow cio m a obs)) T.meetingVersions
          (saveVersionRow cio m a obs)).filter
          (fun w => w.meetingID == m.id)).map (fun w => w.observed)))
      (timeValueOf obs)
      (upsertMeeting fd m (cio a.contentHTML) T.meetings) = T.meetings := by
    rw [h3, upsertMeeting_stable fd m (cio a.contentHTML) T.meetings hanyT hfT]
    apply setMeetingTimes_stable
    intro x hx hid
    rw [hmeet] at hx
    have hinv := (setTimes_upsert_inv fd m (cio a.contentHTML) _ _ S.meetings x hx hid).2
    rw [hver]
    exact hinv
  rw [saveMeetingResult_def cio fd T m a obs, h4, h1, h3, if_pos hadT]
  show saveMeetingURLs obs m.id (cio a.contentHTML) a.contentURLs T = T
  rw [hT, saveMeetingResult_def]
  exact saveMeetingURLs_idem _ _ _ _ _

/-- C3: invoking saveMeeting twice with identical arguments (same meeting,
same agenda, same observation time) succeeds both times, leaves the store
unchanged on the second call, and yields exactly one agenda-content row for
the content hash, exactly one search-index row for it, and exactly one
meeting_versions row for the version tuple. -/
theorem c3_saveMeeting_idempotent (cio : String → String) (fd : Int → String) (S : Store)
    (m : Meeting) (a : MeetingAgenda) (obs : Int)
    (hURL : m.urlNamed "agenda" ≠ "")
    (hC : S.meetingAgendaContent.countP (fun c => c.id == cio a.contentHTML) = 0)
    (hSe : S.meetingAgendaContentSearch.countP
        (fun s => s.contentID == cio a.contentHTML) = 0)
    (hV : S.meetingVersions.countP (fun w => versionKey w
        == versionKey (saveVersionRow cio m a obs)) = 0) :
    ∃ S1, saveMeeting cio fd S m a obs = .ok S1
      ∧ saveMeeting cio fd S1 m a obs = .ok S1
      ∧ S1.meetingAgendaContent.countP (fun c => c.id == cio a.contentHTML) = 1
      ∧ S1.meetingAgendaContentSearch.countP
          (fun s => s.contentID == cio a.contentHTML) = 1
      ∧ S1.meetingVersions.countP (fun w => versionKey w
          == versionKey (saveVersionRow cio m a obs)) = 1 := by
  refine ⟨saveMeetingResult cio fd S m a obs, saveMeeting_ok _ _ _ _ _ _ hURL,
    ?_, ?_, ?_, ?_⟩
  · rw [saveMeeting_ok _ _ _ _ _ _ hURL, saveMeetingResult_idem]
  · rw [saveMeetingResult_mac]
    exact countP_insertIfAbsent _ _ _ (by simp) hC
  · rw [saveMeetingResult_macs, if_neg]
    · rw [List.countP_append, hSe]
      simp
    · rw [countP_eq_zero_any _ _ hC]
      simp
  · rw [saveMeetingResult_versions]
    exact countP_insertIfAbsent _ _ _ (by simp) hV

/-- Witness for C3 on the empty store. -/
theorem c3_saveMeeting_idempotent_witness :
    ∃ S1, saveMeeting (fun _ => "c") (fun _ => "d") ⟨[], [], [], [], [], [], [], []⟩
        { id := "m1", type := "t", date := 0, note := "", urls := [⟨"agenda", "u"⟩] }
        { contentHTML := "h", contentText := "x", contentURLs := ["e1"] } 5 = .ok S1
      ∧ saveMeeting (fun _ => "c") (fun _ => "d") S1
          { id := "m1", type := "t", date := 0, note := "", urls := [⟨"agenda", "u"⟩] }
          { contentHTML := "h", contentText := "x", contentURLs := ["e1"] } 5 = .ok S1
      ∧ S1.meetingAgendaContent.countP (fun c => c.id == "c") = 1
      ∧ S1.meetingAgendaContentSearch.countP (fun s => s.contentID == "c") = 1
      ∧ S1.meetingVersions.countP (fun w => versionKey w
          == versionKey (saveVersionRow (fun _ => "c")
            { id := "m1", type := "t", date := 0, note := "", urls := [⟨"agenda", "u"⟩] }
            { contentHTML := "h", contentText := "x", contentURLs := ["e1"] } 5)) = 1 :=
  c3_saveMeeting_idempotent (fun _ => "c") (fun _ => "d") ⟨[], [], [], [], [], [], [], []⟩
    { id := "m1", type := "t", date := 0, note := "", urls := [⟨"agenda", "u"⟩] }
    { contentHTML := "h", contentText := "x", contentURLs := ["e1"] } 5
    (by decide) (by decide) (by decide) (by decide)

/-- The successful outcome of `fetchURLContent` (content.go): the response
body bytes written to the temp file, the Content-Type header, the parsed
Last-Modified header (0 when missing or unparseable, i.e. the zero time)
and the ETag header.  The reported size is the number of bytes copied,
which is the body length, and the content ID is the abstracted
base62(sha256-224(body)) hash of the body bytes alone. -/
structure FetchOK where
  body : List Nat
  contentType : String
  lastModified : Int
  etag : String
deriving DecidableEq

/-- The Go `pdf` struct returned by `processPDF`. -/
structure Pdf where
  title : String
  text : String
deriving DecidableEq

/-- `unfetchedURLs` from content.go: urls of rows whose `fetched` column is
NULL, capped by `limit 500`. -/
def unfetchedURLs (S : Store) : List String :=
  (((S.externalContentURLs.filter (fun r => r.fetched.isNone)).take 500).map
    (fun r => r.url))

/-- The `saveErr` closure inside `processURL` (content.go): set `fetched`
to now and `error` to the message on the row for this url, leaving every
other column as it was. -/
def saveErr (S : Store) (u : String) (now : Int) (msg : String) : Store :=
  { S with externalContentURLs := S.externalContentURLs.map (fun r =>
      if r.url == u then { r with fetched := timeValueOf now, error := some msg } else r) }

/-- `contentExists` from content.go: whether an `external_content` row with
this id exists. -/
def contentExists (S : Store) (id : String) : Bool :=
  S.externalContent.any (fun c => c.id == id)

/-- `saveContent` from content.go: insert the content row (`on conflict do
nothing` on the id primary key) and, unconditionally, its search row. -/
def saveContent (S : Store) (c : ExtContentRow) : Store :=
  { S with
    externalContent := insertIfAbsent (fun x => x.id == c.id) S.externalContent c
    externalContentSearch := S.externalContentSearch
      ++ [{ contentID := c.id, title := c.title, text := c.text }] }

/-- The title, text and whether `processPDF` ran, for the extraction block
of `processURL` (content.go), entered only when the content id is new.

Faithful to a slip in the source: after `p, perr := processPDF(ctx, uc.f)`
the code tests the enclosing `err` variable, which is necessarily nil at
that point, instead of `perr`; so when extraction fails the zero `pdf`
value (empty title and text) is kept and execution falls through to the
normal success path. -/
def extractionOutcome (pdfOf : List Nat → Except String Pdf) (uc : FetchOK) :
    String × String × Bool :=
  match uc.contentType with
  | "application/pdf" =>
    match pdfOf uc.body with
    | .ok p => (p.title, p.text, true)
    | .error _ => ("", "", true)
  | _ => ("", "", false)

/-- The update written to the fetched url row on the success path of
`processURL`: fetched timestamp, HTTP metadata, a cleared error column and
the reference to the content row. -/
def markFetched (u : String) (now : Int) (uc : FetchOK) (cid : String)
    (r : ExtURLRow) : ExtURLRow :=
  if r.url == u then
    { r with
      fetched := timeValueOf now
      contentType := some uc.contentType
      size := some (Int.ofNat uc.body.length)
      lastModified := timeValueOf uc.lastModified
      etag := if uc.etag = "" then none else some uc.etag
      error := none
      externalContentID := some cid } else r

/-- `processURL` from content.go.  `bodyHash` abstracts the
base62(sha256-224) content ID computed from the body bytes inside
`fetchURLContent`; `pdfOf` abstracts running `processPDF` on the fetched
temp file; `fetch` is the outcome of `fetchURLContent` for this url.

Returns the updated store and whether `processPDF` was invoked.  On a
fetch error the row is marked fetched-with-error and the Go function
returns nil to its caller, so the pipeline moves on to the next url; the
model is total, mirroring that no error escapes this path. -/
def processURL (bodyHash : List Nat → String) (pdfOf : List Nat → Except String Pdf)
    (S : Store) (u : String) (now : Int) (fetch : Except String FetchOK) :
    Store × Bool :=
  match fetch with
  | .error e => (saveErr S u now e, false)
  | .ok uc =>
    let cid := bodyHash uc.body
    let ex := contentExists S cid
    let eo := extractionOutcome pdfOf uc
    let S1 := if ex then S
      else saveContent S { id := cid, title := eo.1, text := eo.2.1 }
    let S2 := { S1 with externalContentURLs :=
      S1.externalContentURLs.map (markFetched u now uc cid) }
    (S2, if ex then false else eo.2.2)

theorem processURL_ok_absent (bh : List Nat → String)
    (pdfOf : List Nat → Except String Pdf) (S : Store) (u : String) (now : Int)
    (uc : FetchOK) (hex : contentExists S (bh uc.body) = false) :
    processURL bh pdfOf S u now (.ok uc)
      = ({ saveContent S
            { id := bh uc.body
              title := (extractionOutcome pdfOf uc).1
              text := (extractionOutcome pdfOf uc).2.1 } with
           externalContentURLs := S.externalContentURLs.map
             (markFetched u now uc (bh uc.body)) },
         (extractionOutcome pdfOf uc).2.2) := by
  simp only [processURL, hex]
  rfl

theorem processURL_ok_present (bh : List Nat → String)
    (pdfOf : List Nat → Except String Pdf) (S : Store) (u : String) (now : Int)
    (uc : FetchOK) (hex : contentExists S (bh uc.body) = true) :
    processURL bh pdfOf S u now (.ok uc)
      = ({ S with
           externalContentURLs := S.externalContentURLs.map
             (markFetched u now uc (bh uc.body)) }, false) := by
  simp only [processURL, hex]
  rfl

/-- C8: on a fetch error, processURL records the fetch time and the error
message on the url row and returns control to the loop; since the backlog
query `unfetchedURLs` selects only rows with NULL fetched, such a row is
never surfaced again. -/
theorem c8_fetch_error_terminal (bh : List Nat → String)
    (pdfOf : List Nat → Except String Pdf) (S : Store) (u : String) (now : Int)
    (e : String) (hnow : now ≠ 0) :
    (∀ r ∈ ((processURL bh pdfOf S u now (.error e)).1).externalContentURLs,
        r.url = u → r.fetched = some now ∧ r.error = some e)
    ∧ u ∉ unfetchedURLs (processURL bh pdfOf S u now (.error e)).1 := by
  have hext : ((processURL bh pdfOf S u now (.error e)).1).externalContentURLs
      = S.externalContentURLs.map (fun r => if r.url == u then
        { r with fetched := timeValueOf now, error := some e } else r) := rfl
  constructor
  · intro r hr hru
    rw [hext] at hr
    obtain ⟨y, hy, hxy⟩ := List.mem_map.mp hr
    by_cases hyu : (y.url == u) = true
    · rw [if_pos hyu] at hxy
      subst hxy
      refine ⟨?_, rfl⟩
      show timeValueOf now = some now
      unfold timeValueOf
      rw [if_neg hnow]
    · rw [if_neg hyu] at hxy
      subst hxy
      simp [hru] at hyu
  · intro hmem
    unfold unfetchedURLs at hmem
    obtain ⟨r, hrtake, hru⟩ := List.mem_map.mp hmem
    have hrfilter := List.mem_of_mem_take hrtake
    have hrmem := (List.mem_filter.mp hrfilter).1
    have hnone := (List.mem_filter.mp hrfilter).2
    rw [hext] at hrmem
    obtain ⟨y, hy, hxy⟩ := List.mem_map.mp hrmem
    by_cases hyu : (y.url == u) = true
    · rw [if_pos hyu] at hxy
      subst hxy
      simp [timeValueOf, hnow] at hnone
    · rw [if_neg hyu] at hxy
      subst hxy
      simp [hru] at hyu

/-- Witness for C8: one unfetched row, network failure "dial timeout". -/
theorem c8_fetch_error_terminal_witness :
    (∀ r ∈ ((processURL (fun _ => "C") (fun _ => .error "x")
        ⟨[], [], [], [], [], [], [⟨"u1", some 1, none, none, none, none, none, none,
          none⟩], []⟩
        "u1" 5 (.error "fetch: dial timeout")).1).externalContentURLs,
        r.url = "u1" → r.fetched = some 5 ∧ r.error = some "fetch: dial timeout")
    ∧ "u1" ∉ unfetchedURLs (processURL (fun _ => "C") (fun _ => .error "x")
        ⟨[], [], [], [], [], [], [⟨"u1", some 1, none, none, none, none, none, none,
          none⟩], []⟩
        "u1" 5 (.error "fetch: dial timeout")).1 :=
  c8_fetch_error_terminal (fun _ => "C") (fun _ => .error "x")
    ⟨[], [], [], [], [], [], [⟨"u1", some 1, none, none, none, none, none, none,
      none⟩], []⟩
    "u1" 5 "fetch: dial timeout" (by decide)

/-- C2, evaluated at a failing input: fetch succeeds with Content-Type
application/pdf and processPDF fails, yet processURL stores an
empty-titled, empty-texted external_content row together with its search
row, and marks the url row successfully fetched: fetched set, error NULL
and external_content_id pointing at the stored row.  The claim (and the
intent visible in the dead error branch) says the row should instead be
marked fetched-with-error with no content row; the code tests the stale
`err` variable instead of `perr`, so that branch never runs. -/
theorem c2_extraction_failure_not_error_state :
    processURL (fun _ => "C") (fun _ => .error "pdfinfo: exit status 1")
        ⟨[], [], [], [], [], [],
          [⟨"u1", some 1, none, none, none, none, none, none, none⟩], []⟩
        "u1" 5 (.ok ⟨[1, 2, 3], "application/pdf", 0, ""⟩)
      = (⟨[], [], [], [], [⟨"C", "", ""⟩], [⟨"C", "", ""⟩],
          [⟨"u1", some 1, some 5, some "application/pdf", some 3, none, none, none,
            some "C"⟩], []⟩, true) := by decide

theorem markFetched_url (u : String) (now : Int) (uc : FetchOK) (cid : String)
    (r : ExtURLRow) : (markFetched u now uc cid r).url = r.url := by
  unfold markFetched
  by_cases h : (r.url == u) = true <;> simp [h]

/-- C6: two distinct urls with byte-identical bodies resolve to one
external_content row: the content id depends only on the body bytes, after
both are processed exactly one row with that id exists, extraction is not
invoked by the second call, and every url row for either url references
the single content row. -/
theorem c6_cross_url_dedup (bh : List Nat → String)
    (pdfOf : List Nat → Except String Pdf) (S : Store) (u1 u2 : String)
    (n1 n2 : Int) (uc1 uc2 : FetchOK)
    (hne : u1 ≠ u2)
    (hbody : uc2.body = uc1.body)
    (habsent : S.externalContent.countP (fun c => c.id == bh uc1.body) = 0)
    (h1 : S.externalContentURLs.any (fun r => r.url == u1) = true)
    (h2 : S.externalContentURLs.any (fun r => r.url == u2) = true) :
    bh uc2.body = bh uc1.body
    ∧ ((processURL bh pdfOf (processURL bh pdfOf S u1 n1 (.ok uc1)).1 u2 n2
        (.ok uc2)).1).externalContent.countP (fun c => c.id == bh uc1.body) = 1
    ∧ (processURL bh pdfOf (processURL bh pdfOf S u1 n1 (.ok uc1)).1 u2 n2
        (.ok uc2)).2 = false
    ∧ (∀ r ∈ ((processURL bh pdfOf (processURL bh pdfOf S u1 n1 (.ok uc1)).1 u2 n2
        (.ok uc2)).1).externalContentURLs, r.url = u1 ∨ r.url = u2 →
          r.externalContentID = some (bh uc1.body))
    ∧ (∃ r ∈ ((processURL bh pdfOf (processURL bh pdfOf S u1 n1 (.ok uc1)).1 u2 n2
        (.ok uc2)).1).externalContentURLs, r.url = u1)
    ∧ (∃ r ∈ ((processURL bh pdfOf (processURL bh pdfOf S u1 n1 (.ok uc1)).1 u2 n2
        (.ok uc2)).1).externalContentURLs, r.url = u2) := by
  have hcid2 : bh uc2.body = bh uc1.body := by rw [hbody]
  have hexS : contentExists S (bh uc1.body) = false :=
    countP_eq_zero_any _ _ habsent
  have hP1 := processURL_ok_absent bh pdfOf S u1 n1 uc1 hexS
  have hT1ext : (processURL bh pdfOf S u1 n1 (.ok uc1)).1.externalContentURLs
      = S.externalContentURLs.map (markFetched u1 n1 uc1 (bh uc1.body)) := by
    rw [hP1]
  have hT1content : (processURL bh pdfOf S u1 n1 (.ok uc1)).1.externalContent
      = insertIfAbsent (fun c => c.id == bh uc1.body) S.externalContent
          { id := bh uc1.body
            title := (extractionOutcome pdfOf uc1).1
            text := (extractionOutcome pdfOf uc1).2.1 } := by
    rw [hP1]
    rfl
  have hexT1 : contentExists (processURL bh pdfOf S u1 n1 (.ok uc1)).1
      (bh uc2.body) = true := by
    unfold contentExists
    rw [hcid2, hT1content]
    exact any_insertIfAbsent _ _ _ (by simp)
  have hP2 := processURL_ok_present bh pdfOf _ u2 n2 uc2 hexT1
  have hfinalContent : ((processURL bh pdfOf (processURL bh pdfOf S u1 n1
      (.ok uc1)).1 u2 n2 (.ok uc2)).1).externalContent
      = insertIfAbsent (fun c => c.id == bh uc1.body) S.externalContent
          { id := bh uc1.body
            title := (extractionOutcome pdfOf uc1).1
            text := (extractionOutcome pdfOf uc1).2.1 } := by
    rw [hP2]
    exact hT1content
  have hurl : ((processURL bh pdfOf (processURL bh pdfOf S u1 n1 (.ok uc1)).1 u2 n2
      (.ok uc2)).1).externalContentURLs
      = (S.externalContentURLs.map (markFetched u1 n1 uc1 (bh uc1.body))).map
          (markFetched u2 n2 uc2 (bh uc2.body)) := by
    rw [hP2]
    show (processURL bh pdfOf S u1 n1 (.ok uc1)).1.externalContentURLs.map
      (markFetched u2 n2 uc2 (bh uc2.body)) = _
    rw [hT1ext]
  refine ⟨hcid2, ?_, ?_, ?_, ?_, ?_⟩
  · rw [hfinalContent]
    exact countP_insertIfAbsent _ _ _ (by simp) habsent
  · rw [hP2]
  · intro r hr hor
    rw [hurl] at hr
    obtain ⟨y1, hy1, hy1e⟩ := List.mem_map.mp hr
    obtain ⟨y, hy, hye⟩ := List.mem_map.mp hy1
    have hru : r.url = y.url := by
      rw [← hy1e, markFetched_url, ← hye, markFetched_url]
    rcases hor with h | h
    · have hyu1 : y.url = u1 := by rw [← hru]; exact h
      have hg1 : (y.url == u1) = true := by simp [hyu1]
      have hy1eq : y1 = { y with
          fetched := timeValueOf n1
          contentType := some uc1.contentType
          size := some (Int.ofNat uc1.body.length)
          lastModified := timeValueOf uc1.lastModified
          etag := if uc1.etag = "" then none else some uc1.etag
          error := none
          externalContentID := some (bh uc1.body) } := by
        rw [← hye]
        unfold markFetched
        rw [if_pos hg1]
      have hg2 : (y1.url == u2) = false := by
        rw [hy1eq]
        show (y.url == u2) = false
        simp [hyu1]
        exact hne
      rw [← hy1e]
      unfold markFetched
      simp only [hg2, Bool.false_eq_true, if_false]
      rw [hy1eq]
    · have hyu2 : y.url = u2 := by rw [← hru]; exact h
      have hg1 : (y.url == u1) = false := by
        simp [hyu2]
        exact fun hh => hne hh.symm
      have hy1eq : y1 = y := by
        rw [← hye]
        unfold markFetched
        simp only [hg1, Bool.false_eq_true, if_false]
      have hg2 : (y1.url == u2) = true := by simp [hy1eq, hyu2]
      rw [← hy1e]
      unfold markFetched
      rw [if_pos hg2, hcid2]
  · obtain ⟨y, hy, hyu⟩ := List.any_eq_true.mp h1
    refine ⟨markFetched u2 n2 uc2 (bh uc2.body)
      (markFetched u1 n1 uc1 (bh uc1.body) y), ?_, ?_⟩
    · rw [hurl]
      exact List.mem_map_of_mem _ (List.mem_map_of_mem _ hy)
    · rw [markFetched_url, markFetched_url]
      exact eq_of_beq hyu
  · obtain ⟨y, hy, hyu⟩ := List.any_eq_true.mp h2
    refine ⟨markFetched u2 n2 uc2 (bh uc2.body)
      (markFetched u1 n1 uc1 (bh uc1.body) y), ?_, ?_⟩
    · rw [hurl]
      exact List.mem_map_of_mem _ (List.mem_map_of_mem _ hy)
    · rw [markFetched_url, markFetched_url]
      exact eq_of_beq hyu

/-- Witness for C6: urls "a" and "b" fetched with the same one-byte body. -/
theorem c6_cross_url_dedup_witness :
    (fun _ : List Nat => "H") ([7] : List Nat) = (fun _ : List Nat => "H") ([7] : List Nat)
    ∧ ((processURL (fun _ => "H") (fun _ => .ok ⟨"T", "X"⟩)
        (processURL (fun _ => "H") (fun _ => .ok ⟨"T", "X"⟩)
          ⟨[], [], [], [], [], [],
            [⟨"a", some 1, none, none, none, none, none, none, none⟩,
             ⟨"b", some 1, none, none, none, none, none, none, none⟩], []⟩
          "a" 1 (.ok ⟨[7], "application/pdf", 0, ""⟩)).1 "b" 2
        (.ok ⟨[7], "application/pdf", 0, ""⟩)).1).externalContent.countP
        (fun c => c.id == "H") = 1
    ∧ (processURL (fun _ => "H") (fun _ => .ok ⟨"T", "X"⟩)
        (processURL (fun _ => "H") (fun _ => .ok ⟨"T", "X"⟩)
          ⟨[], [], [], [], [], [],
            [⟨"a", some 1, none, none, none, none, none, none, none⟩,
             ⟨"b", some 1, none, none, none, none, none, none, none⟩], []⟩
          "a" 1 (.ok ⟨[7], "application/pdf", 0, ""⟩)).1 "b" 2
        (.ok ⟨[7], "application/pdf", 0, ""⟩)).2 = false
    ∧ (∀ r ∈ ((processURL (fun _ => "H") (fun _ => .ok ⟨"T", "X"⟩)
        (processURL (fun _ => "H") (fun _ => .ok ⟨"T", "X"⟩)
          ⟨[], [], [], [], [], [],
            [⟨"a", some 1, none, none, none, none, none, none, none⟩,
             ⟨"b", some 1, none, none, none, none, none, none, none⟩], []⟩
          "a" 1 (.ok ⟨[7], "application/pdf", 0, ""⟩)).1 "b" 2
        (.ok ⟨[7], "application/pdf", 0, ""⟩)).1).externalContentURLs,
        r.url = "a" ∨ r.url = "b" → r.externalContentID = some "H")
    ∧ (∃ r ∈ ((processURL (fun _ => "H") (fun _ => .ok ⟨"T", "X"⟩)
        (processURL (fun _ => "H") (fun _ => .ok ⟨"T", "X"⟩)
          ⟨[], [], [], [], [], [],
            [⟨"a", some 1, none, none, none, none, none, none, none⟩,
             ⟨"b", some 1, none, none, none, none, none, none, none⟩], []⟩
          "a" 1 (.ok ⟨[7], "application/pdf", 0, ""⟩)).1 "b" 2
        (.ok ⟨[7], "application/pdf", 0, ""⟩)).1).externalContentURLs, r.url = "a")
    ∧ (∃ r ∈ ((processURL (fun _ => "H") (fun _ => .ok ⟨"T", "X"⟩)
        (processURL (fun _ => "H") (fun _ => .ok ⟨"T", "X"⟩)
          ⟨[], [], [], [], [], [],
            [⟨"a", some 1, none, none, none, none, none, none, none⟩,
             ⟨"b", some 1, none, none, none, none, none, none, none⟩], []⟩
          "a" 1 (.ok ⟨[7], "application/pdf", 0, ""⟩)).1 "b" 2
        (.ok ⟨[7], "application/pdf", 0, ""⟩)).1).externalContentURLs, r.url = "b") :=
  c6_cross_url_dedup (fun _ => "H") (fun _ => .ok ⟨"T", "X"⟩)
    ⟨[], [], [], [], [], [],
      [⟨"a", some 1, none, none, none, none, none, none, none⟩,
       ⟨"b", some 1, none, none, none, none, none, none, none⟩], []⟩
    "a" "b" 1 2 ⟨[7], "application/pdf", 0, ""⟩ ⟨[7], "application/pdf", 0, ""⟩
    (by decide) rfl (by decide) (by decide) (by decide)

/-- The freshness check as processMeetings performs it: look the meeting up
in the `meetings` table (the query of isMeetingFresh); a missing row is
ErrNoRows, a NULL last_observed scans as the zero time.  `jitterOf` supplies
the random jitter sample drawn for this call. -/
def meetingFresh (S : Store) (now : Int) (jitterOf : Meeting → Int) (m : Meeting) : Bool :=
  isMeetingFresh ((S.meetings.find? (fun r => r.id == m.id)).map
    (fun r => r.lastObserved.getD 0)) now m.date (jitterOf m)

/-- The crawl cutoff computed at the top of processMeetings (meetings.go):
start from now minus one month, and when `select max(last_observed) from
meetings` scans to a nonzero time, use that time minus eight months.
`addMonths` abstracts Go calendar arithmetic `AddDate(0, months, 0)`. -/
def processCutoff (addMonths : Int → Int → Int) (now : Int) (S : Store) : Int :=
  let mo := (sqlMax (S.meetings.map (fun r => r.lastObserved))).getD 0
  if mo = 0 then addMonths now (-1) else addMonths mo (-8)

/-- The inner for-loop of processMeetings over one page of listed meetings:
returns the meetings enqueued from this page (cutoff-passing and not
fresh) and whether the `break outer` on a pre-cutoff date fired. -/
def collectPage (cutoff : Int) (fresh : Meeting → Bool) : List Meeting → List Meeting × Bool
  | [] => ([], false)
  | m :: rest =>
    if m.date < cutoff then ([], true)
    else
      let r := collectPage cutoff fresh rest
      if fresh m then r else (m :: r.1, r.2)

/-- The paginated listing loop of processMeetings for one source, given the
pages the source would successively return: consume pages until a page
stops at a pre-cutoff meeting (or pages run out, the empty next token). -/
def collectSource (cutoff : Int) (fresh : Meeting → Bool) : List (List Meeting) → List Meeting
  | [] => []
  | page :: pages =>
    let r := collectPage cutoff fresh page
    if r.2 then r.1 else r.1 ++ collectSource cutoff fresh pages

/-- The needMeetings list accumulated by processMeetings across its sources
(halifax then escribe), in order. -/
def processMeetingsNeed (addMonths : Int → Int → Int) (now : Int) (S : Store)
    (sources : List (List (List Meeting))) (jitterOf : Meeting → Int) : List Meeting :=
  (sources.map (collectSource (processCutoff addMonths now S)
    (meetingFresh S now jitterOf))).flatten

theorem takeWhile_all {α : Type} (p : α → Bool) (l : List α)
    (h : ∀ x ∈ l, p x = true) : l.takeWhile p = l := by
  induction l with
  | nil => rfl
  | cons x l ih =>
    rw [List.takeWhile_cons, h x (by simp)]
    simp [ih (fun y hy => h y (by simp [hy]))]

theorem takeWhile_append_stop {α : Type} (p : α → Bool) (l l' : List α)
    (h : l.any (fun x => !(p x)) = true) : (l ++ l').takeWhile p = l.takeWhile p := by
  induction l with
  | nil => simp at h
  | cons x l ih =>
    by_cases hx : p x = true
    · simp only [List.any_cons, hx, Bool.not_true, Bool.false_or] at h
      rw [List.cons_append, List.takeWhile_cons, hx, List.takeWhile_cons, hx, ih h]
    · rw [Bool.not_eq_true] at hx
      rw [List.cons_append, List.takeWhile_cons, hx, List.takeWhile_cons, hx]
      simp

theorem collectPage_eq (cutoff : Int) (fresh : Meeting → Bool) (l : List Meeting) :
    collectPage cutoff fresh l
      = ((l.takeWhile (fun m => !decide (m.date < cutoff))).filter (fun m => !(fresh m)),
         l.any (fun m => decide (m.date < cutoff))) := by
  induction l with
  | nil => simp [collectPage]
  | cons m rest ih =>
    by_cases hm : m.date < cutoff
    · simp [collectPage, hm]
    · by_cases hf : fresh m = true
      · simp [collectPage, hm, ih, hf]
      · rw [Bool.not_eq_true] at hf
        simp [collectPage, hm, ih, hf]

theorem collectSource_eq (cutoff : Int) (fresh : Meeting → Bool)
    (pages : List (List Meeting)) :
    collectSource cutoff fresh pages
      = (pages.flatten.takeWhile (fun m => !decide (m.date < cutoff))).filter
          (fun m => !(fresh m)) := by
  induction pages with
  | nil => simp [collectSource]
  | cons page pages ih =>
    rw [List.flatten_cons]
    by_cases hs : page.any (fun m => decide (m.date < cutoff)) = true
    · have hstop : page.any (fun x => !((fun m => !decide (m.date < cutoff)) x)) = true := by
        rw [any_pointwise page _ (fun m => decide (m.date < cutoff))]
        · exact hs
        · intro x
          simp
      rw [takeWhile_append_stop _ _ _ hstop]
      simp [collectSource, collectPage_eq, hs]
    · rw [Bool.not_eq_true] at hs
      have hall : ∀ x ∈ page, (fun m => !decide (m.date < cutoff)) x = true := by
        intro x hx
        rw [List.any_eq_false] at hs
        simp only [Bool.not_eq_true]
        have := hs x hx
        simp only [decide_eq_true_eq] at this ⊢
        simpa using this
      rw [List.takeWhile_append_of_pos hall, List.filter_append]
      simp [collectSource, collectPage_eq, hs, ih, takeWhile_all _ _ hall]

/-- C4: the crawl cutoff is max(last_observed) over known meetings minus 8
months, or now minus 1 month when none is recorded; and the enqueued
meetings of each source are exactly the meetings listed before the first
pre-cutoff date (the early stop ends the source) that the freshness check
does not mark fresh, sources concatenated in order. -/
theorem c4_processMeetings_need (addMonths : Int → Int → Int) (now : Int) (S : Store)
    (sources : List (List (List Meeting))) (jitterOf : Meeting → Int) :
    processCutoff addMonths now S
      = (match sqlMax (S.meetings.map (fun r => r.lastObserved)) with
         | none => addMonths now (-1)
         | some t => if t = 0 then addMonths now (-1) else addMonths t (-8))
    ∧ processMeetingsNeed addMonths now S sources jitterOf
      = (sources.map (fun pages =>
          (pages.flatten.takeWhile
            (fun m => !decide (m.date < processCutoff addMonths now S))).filter
            (fun m => !(meetingFresh S now jitterOf m)))).flatten := by
  constructor
  · unfold processCutoff
    cases h : sqlMax (S.meetings.map (fun r => r.lastObserved)) with
    | none => simp
    | some t => simp
  · unfold processMeetingsNeed
    have hfun : collectSource (processCutoff addMonths now S) (meetingFresh S now jitterOf)
        = (fun pages : List (List Meeting) =>
          (pages.flatten.takeWhile
            (fun m => !decide (m.date < processCutoff addMonths now S))).filter
            (fun m => !(meetingFresh S now jitterOf m))) :=
      funext (collectSource_eq _ _)
    rw [hfun]

/-- Go strings.TrimPrefix: remove the leading occurrence of p, if any. -/
def stripLeading (s p : String) : String :=
  if s.startsWith p then s.drop p.length else s

/-- Go strings.TrimSuffix: remove the trailing occurrence of p, if any. -/
def stripTrailing (s p : String) : String :=
  if s.endsWith p then s.dropRight p.length else s

/-- The title scan of processPDF (content.go): the first pdfinfo output
line starting with "Title:", or the empty string. -/
def pdfTitleLine : List String → String
  | [] => ""
  | l :: rest => if l.startsWith "Title:" then l else pdfTitleLine rest

/-- The title derivation of processPDF: take the Title: line of the
pdfinfo output, strip the prefix and surrounding space, then strip the
trailing site branding and surrounding space. -/
def pdfTitle (out : String) : String :=
  let t := (stripLeading (pdfTitleLine (out.splitOn "\n")) "Title:").trim
  (stripTrailing t "| Halifax.ca").trim

/-- The environment of one processPDF run: the outcome of the pdfinfo
command, of the pdftotext command, and of the rasterize-and-OCR stage
(pdftoppm, per-page tesseract, reading back the page files).  The page
texts are listed in ascending page order: pdftoppm zero-pads page numbers,
so the sorted glob used by the code enumerates pages ascending. -/
structure PDFEnv where
  info : Except String String
  textLayer : Except String String
  pageTexts : Except String (List String)

/-- `processPDF` from content.go over a run environment: fail if pdfinfo
fails; derive the title; return the trimmed text layer when non-empty;
otherwise rasterize and OCR, concatenating each page text followed by a
newline and trimming the result. -/
def processPDF (env : PDFEnv) : Except String Pdf :=
  match env.info with
  | .error e => .error ("pdfinfo: " ++ e)
  | .ok out =>
    let title := pdfTitle out
    match env.textLayer with
    | .error e => .error ("pdftotext: " ++ e)
    | .ok t =>
      if t.trim ≠ "" then .ok { title := title, text := t.trim }
      else
        match env.pageTexts with
        | .error e => .error e
        | .ok ps =>
          .ok { title := title, text := (String.join (ps.map (fun s => s ++ "\n"))).trim }

/-- Whether a processPDF run reaches the pdftoppm rasterization call: only
when pdfinfo and pdftotext both succeed and the trimmed text layer is
empty. -/
def processPDFUsesOCR (env : PDFEnv) : Bool :=
  match env.info, env.textLayer with
  | .ok _, .ok t => t.trim == ""
  | _, _ => false

/-- C7: with a non-empty extractable text layer, processPDF returns the
trimmed text without ever rasterizing or running OCR; with an empty text
layer it OCRs and concatenates the page texts in ascending page order
(each followed by a newline, the result trimmed); in both cases the title
comes from the pdfinfo metadata with the trailing site branding stripped. -/
theorem c7_pdf_cascade (env : PDFEnv) (out t : String)
    (hi : env.info = .ok out) (ht : env.textLayer = .ok t) :
    (t.trim ≠ "" → processPDF env = .ok { title := pdfTitle out, text := t.trim }
      ∧ processPDFUsesOCR env = false)
    ∧ (t.trim = "" → processPDFUsesOCR env = true
      ∧ ∀ ps, env.pageTexts = .ok ps →
          processPDF env = .ok { title := pdfTitle out
                                 text := (String.join (ps.map (fun s => s ++ "\n"))).trim })
    ∧ pdfTitle out = (stripTrailing ((stripLeading (pdfTitleLine (out.splitOn "\n"))
        "Title:").trim) "| Halifax.ca").trim := by
  refine ⟨?_, ?_, rfl⟩
  · intro hne
    unfold processPDF processPDFUsesOCR
    rw [hi, ht]
    constructor
    · simp only [if_pos hne]
    · simp [hne]
  · intro heq
    unfold processPDF processPDFUsesOCR
    rw [hi, ht]
    refine ⟨by simp [heq], ?_⟩
    intro ps hps
    rw [hps]
    simp [heq]

/-- Witness for C7 with a non-empty text layer. -/
theorem c7_pdf_cascade_witness :
    (("x" : String).trim ≠ "" →
      processPDF ⟨.ok "", .ok "x", .ok []⟩
          = .ok { title := pdfTitle "", text := ("x" : String).trim }
        ∧ processPDFUsesOCR ⟨.ok "", .ok "x", .ok []⟩ = false)
    ∧ (("x" : String).trim = "" →
        processPDFUsesOCR ⟨.ok "", .ok "x", .ok []⟩ = true
        ∧ ∀ ps, (⟨.ok "", .ok "x", .ok []⟩ : PDFEnv).pageTexts = .ok ps →
            processPDF ⟨.ok "", .ok "x", .ok []⟩
              = .ok { title := pdfTitle ""
                      text := (String.join (ps.map (fun s => s ++ "\n"))).trim })
    ∧ pdfTitle "" = (stripTrailing ((stripLeading (pdfTitleLine (("" : String).splitOn "\n"))
        "Title:").trim) "| Halifax.ca").trim :=
  c7_pdf_cascade ⟨.ok "", .ok "x", .ok []⟩ "" "x" rfl rfl

/-- One entry of the escribe GetAllMeetings response document link list,
with the fields the code reads. -/
structure DocLink where
  title : String
  type : String
  format : String
  url : String
deriving DecidableEq

/-- One entry of the decoded escribe GetAllMeetings response, with the
fields the code reads. -/
structure EscribeEntry where
  id : String
  meetingType : String
  startDate : String
  docLinks : List DocLink
deriving DecidableEq

/-- Go strings.Cut(s, sep): the part before the first separator, when the
separator occurs. -/
def goCutBefore (s sep : String) : Option String :=
  match s.splitOn sep with
  | [] => none
  | [_] => none
  | b :: _ => some b

/-- Go strings.Contains, for a nonempty pattern. -/
def goContains (s sub : String) : Bool := (s.splitOn sub).length != 1

/-- The document-link loop of EscribeClient.List (client.go): collect the
agenda, minutes and video links in order, recording whether an HTML agenda
link was seen. -/
def escribeLinks (absU : String → String) : List DocLink → List MeetingURL × Bool
  | [] => ([], false)
  | dl :: rest =>
    let r := escribeLinks absU rest
    if dl.type == "Agenda" && dl.format == "HTML" then
      (⟨"agenda", absU dl.url⟩ :: r.1, true)
    else if dl.type == "AdditionalDocuments" && dl.format == ".pdf"
        && goContains dl.title "Minutes" then
      (⟨"minutes", absU dl.url⟩ :: r.1, r.2)
    else if dl.type == "Video" then
      (⟨"video", absU dl.url⟩ :: r.1, r.2)
    else r

/-- The entry loop of EscribeClient.List: cut the start date at the first
space and parse it, rewrite the Halifax Regional Council type, collect the
links, and skip agenda-less Continuation meetings; a malformed date aborts
the whole call. -/
def escribeMeetings (parseD : String → Option Int) (absU : String → String) :
    List EscribeEntry → Except String (List Meeting)
  | [] => .ok []
  | e :: rest =>
    match goCutBefore e.startDate " " with
    | none => .error ("bad start date " ++ e.startDate)
    | some sd =>
      match parseD sd with
      | none => .error ("bad date " ++ sd)
      | some d =>
        let mtype := if e.meetingType == "Halifax Regional Council"
          then "Regional Council" else e.meetingType
        let lk := escribeLinks absU e.docLinks
        match escribeMeetings parseD absU rest with
        | .error er => .error er
        | .ok ms =>
          if !lk.2 && goContains mtype "Continuation" then .ok ms
          else .ok ({ id := e.id, type := mtype, date := d, note := "", urls := lk.1 } :: ms)

/-- EscribeClient.List from client.go.  A non-empty pagination token is
rejected before any network interaction; `env` is the outcome of the
network interaction (request construction, HTTP status, body read and JSON
decode errors folded into the error case, the decoded entries on success);
`parseD` abstracts Go time.Parse with layout 2006/01/02 on the cut date;
`absU` abstracts resolution against the portal base URL.  Every successful
return carries an empty next token. -/
def escribeList (parseD : String → Option Int) (absU : String → String)
    (env : Except String (List EscribeEntry)) (token : String) :
    Except String (List Meeting × String) :=
  if token ≠ "" then .error "escribe does not support pagination"
  else
    match env with
    | .error e => .error e
    | .ok entries =>
      match escribeMeetings parseD absU entries with
      | .error e => .error e
      | .ok ms => .ok (ms, "")

/-- The pagination loop of processMeetings over one client, fuelled: call
List with the current token, stop when the returned next token is empty,
otherwise continue with it. -/
def listPages (c : String → Except String (List Meeting × String)) :
    Nat → String → Except String (List (List Meeting))
  | 0, _ => .ok []
  | fuel + 1, token =>
    match c token with
    | .error e => .error e
    | .ok (ms, nt) =>
      if nt = "" then .ok [ms]
      else
        match listPages c fuel nt with
        | .error e => .error e
        | .ok rest => .ok (ms :: rest)

/-- C10: EscribeClient.List with any non-empty token fails identically for
every network environment (no request is made); a successful call returns
an empty next token; hence the pagination loop over the escribe source
performs exactly one List call and returns that single page, for any fuel. -/
theorem c10_escribe_single_page (parseD : String → Option Int) (absU : String → String)
    (env : Except String (List EscribeEntry)) (t : String) (ms : List Meeting)
    (nt : String) (fuel : Nat)
    (ht : t ≠ "")
    (hok : escribeList parseD absU env "" = .ok (ms, nt)) :
    (∀ env2, escribeList parseD absU env2 t = .error "escribe does not support pagination")
    ∧ nt = ""
    ∧ listPages (escribeList parseD absU env) (fuel + 1) "" = .ok [ms] := by
  have hnt : nt = "" := by
    unfold escribeList at hok
    rw [if_neg (fun h => h rfl)] at hok
    cases env with
    | error e => exact absurd hok (by simp)
    | ok entries =>
      dsimp only at hok
      cases h : escribeMeetings parseD absU entries with
      | error e =>
        rw [h] at hok
        exact absurd hok (by simp)
      | ok ms2 =>
        rw [h] at hok
        simp only [Except.ok.injEq, Prod.mk.injEq] at hok
        exact hok.2.symm
  refine ⟨?_, hnt, ?_⟩
  · intro env2
    unfold escribeList
    rw [if_pos ht]
  · unfold listPages
    rw [hok]
    simp [hnt]

/-- Witness for C10 on the empty decoded response. -/
theorem c10_escribe_single_page_witness :
    (∀ env2, escribeList (fun _ => none) (fun s => s) env2 "x"
        = .error "escribe does not support pagination")
    ∧ ("" : String) = ""
    ∧ listPages (escribeList (fun _ => none) (fun s => s) (.ok [])) 1 "" = .ok [[]] :=
  c10_escribe_single_page (fun _ => none) (fun s => s) (.ok []) "x" [] "" 0
    (by decide) rfl

end HalifaxMeetings
